import Mathlib

/-!
Verification development for the mreleaser repository
(src/mreleaser/__init__.py).  Python strings are embedded as `List Char`
(ASCII fragment: the claims only exercise ASCII data, so `str.lower` and
`str.isnumeric` are modelled on ASCII characters).  Fallible Python code is
embedded with `Except PyErr`; the `None` sentinel is a dedicated variant.
External stdlib primitives (urllib.parse, ipaddress, importlib.metadata,
subprocess spawning) are modelled as total functions at the granularity the
repository's code observes, per spec section 6 which declares them external
and swappable.
-/

deriving instance DecidableEq for Except

/-- Python `str`, embedded as a list of characters. -/
abbrev PyStr := List Char

/-- ASCII decimal digit `0`-`9` (code points 48-57). -/
def isDigitChar (c : Char) : Bool := 48 ≤ c.toNat && c.toNat ≤ 57

/-- ASCII model of `str.lower` on one character: the letters `A`-`Z`
(code points 65-90) shift down by 32. -/
def lowerChar (c : Char) : Char :=
  if 65 ≤ c.toNat && c.toNat ≤ 90 then Char.ofNat (c.toNat + 32) else c

/-- ASCII model of `str.lower`. -/
def pyLower (s : PyStr) : PyStr := s.map lowerChar

/-- First occurrence of `needle` inside `hay`: the text before it and the
text after it.  `none` when `needle` does not occur. -/
def splitFirstSub (needle : PyStr) : PyStr → Option (PyStr × PyStr)
  | [] => if needle = [] then some ([], []) else none
  | c :: t =>
    if needle.isPrefixOf (c :: t) then some ([], (c :: t).drop needle.length)
    else
      match splitFirstSub needle t with
      | some (a, b) => some (c :: a, b)
      | none => none

/-- Python's substring test `needle in hay`. -/
def containsSub (hay needle : PyStr) : Bool := (splitFirstSub needle hay).isSome

/-- Python's `s.split(sep, 1)`: text before the separator, and `some` rest
when the separator occurs. -/
def splitOnce (sep : Char) (s : PyStr) : PyStr × Option PyStr :=
  match splitFirstSub [sep] s with
  | some (a, b) => (a, some b)
  | none => (s, none)

/-- Python's `s.split(sep)` for a one-character separator. -/
def splitOn (sep : Char) : PyStr → List PyStr
  | [] => [[]]
  | c :: t =>
    let r := splitOn sep t
    if c = sep then [] :: r
    else
      match r with
      | h :: t2 => (c :: h) :: t2
      | [] => [[c]]

/-- Python's `s.rfind(c)`: index of the last occurrence of `c`. -/
def rfindChar (c : Char) (s : PyStr) : Option Nat :=
  match splitFirstSub [c] s.reverse with
  | some (a, _) => some (s.length - 1 - a.length)
  | none => none

/-- ASCII model of `str.isnumeric` (non-empty, decimal digits only; the
non-ASCII Unicode numerics are outside the fragment the claims exercise). -/
def pyIsnumeric (s : PyStr) : Bool := !s.isEmpty && s.all isDigitChar

/-- Base-10 value of a digit string, Python `int(s)` on `isnumeric` input. -/
def digitsToNat (s : PyStr) : Nat := s.foldl (fun a c => 10 * a + (c.toNat - 48)) 0

/-- Python list membership `s in xs` for a list of strings. -/
def pyIn (s : PyStr) (xs : List PyStr) : Bool := xs.any (fun x => s == x)

/-- Python exceptions the embedded code can raise. -/
inductive PyErr where
  | indexError : PyErr
  | packageNotFound : PyErr
deriving DecidableEq

/-- Result of `ipaddress.ip_address`. -/
inductive IPAddr where
  | v4 (a b c d : Nat) : IPAddr
  | v6 (text : PyStr) : IPAddr
deriving DecidableEq

/-- One dotted-quad octet per `ipaddress._parse_octet`: 1-3 decimal digits,
no leading zero, value at most 255. -/
def validOctet (p : PyStr) : Bool :=
  !p.isEmpty && p.length ≤ 3 && p.all isDigitChar &&
    (p.length = 1 || p.head? != some '0') && digitsToNat p ≤ 255

/-- Model of the external IPv4 textual parser (`ipaddress.IPv4Address`):
exactly four valid dot-separated octets. -/
def parseIPv4 (s : PyStr) : Option IPAddr :=
  match splitOn '.' s with
  | [a, b, c, d] =>
    if validOctet a && validOctet b && validOctet c && validOctet d then
      some (.v4 (digitsToNat a) (digitsToNat b) (digitsToNat c) (digitsToNat d))
    else none
  | _ => none

/-- Hexadecimal digit, either case. -/
def isHexChar (c : Char) : Bool :=
  isDigitChar c || ('a' ≤ c && c ≤ 'f') || ('A' ≤ c && c ≤ 'F')

/-- One IPv6 hextet: 1-4 hexadecimal digits. -/
def validHextet (p : PyStr) : Bool := !p.isEmpty && p.length ≤ 4 && p.all isHexChar

/-- Model of the external IPv6 textual parser (`ipaddress.IPv6Address`,
spec section 6: an external, swappable primitive): without a compressed
run the address is exactly eight colon-separated hextets; with a single
`::` the remaining hextet groups number at most seven.  In particular a
colon-free string is never an IPv6 address.  The embedded-IPv4 tail form
is not modelled; no code path the claims exercise reaches it. -/
def parseIPv6 (s : PyStr) : Option IPAddr :=
  match splitFirstSub [':', ':'] s with
  | none =>
    match splitOn ':' s with
    | parts => if parts.length = 8 && parts.all validHextet then some (.v6 s) else none
  | some (l, r) =>
    if containsSub r [':', ':'] then none
    else
      let lp := if l.isEmpty then [] else splitOn ':' l
      let rp := if r.isEmpty then [] else splitOn ':' r
      if (lp ++ rp).all validHextet && lp.length + rp.length ≤ 7 then some (.v6 s)
      else none

/-- Model of `ipaddress.ip_address`: try IPv4, then IPv6. -/
def ipAddress (s : PyStr) : Option IPAddr :=
  match parseIPv4 s with
  | some a => some a
  | none => parseIPv6 s

/-! ## Model of the external URL parsing primitive (`urllib.parse`)

Spec section 6 lists URL parsing as an external, swappable primitive; the
functions below embed CPython's `urlparse` / `ParseResult.geturl` pair
(scheme, netloc, path, params, query, fragment decomposition) as total
functions. -/

/-- `urllib.parse.ParseResult`. -/
structure ParseResult where
  scheme : PyStr
  netloc : PyStr
  path : PyStr
  params : PyStr
  query : PyStr
  fragment : PyStr
deriving DecidableEq

/-- C0 control character or space, stripped from both ends by `urlsplit`. -/
def isC0OrSpace (c : Char) : Bool := c.toNat ≤ 32

/-- Strip leading and trailing C0-control-or-space characters. -/
def wsStrip (s : PyStr) : PyStr :=
  ((s.dropWhile isC0OrSpace).reverse.dropWhile isC0OrSpace).reverse

/-- Remove every tab, carriage return and line feed (`urlsplit`). -/
def removeTabNewline (s : PyStr) : PyStr :=
  s.filter (fun c => !(c = '\t' || c = '\r' || c = '\n'))

/-- Characters allowed after the first one in a URL scheme. -/
def isSchemeRestChar (c : Char) : Bool :=
  c.isAlphanum || c = '+' || c = '-' || c = '.'

/-- Split off the scheme: the text before the first `:` when it is a letter
followed by letters, digits, `+`, `-` or `.`; the scheme is lowercased. -/
def splitScheme (url : PyStr) : PyStr × PyStr :=
  match splitFirstSub [':'] url with
  | some (c0 :: rest, tl) =>
    if c0.isAlpha && rest.all isSchemeRestChar then (pyLower (c0 :: rest), tl)
    else ([], url)
  | _ => ([], url)

/-- `urllib.parse._splitnetloc`: after a leading `//`, the netloc runs to
the first `/`, `?` or `#`. -/
def splitNetloc (url : PyStr) : PyStr × PyStr :=
  let rest := url.drop 2
  let netloc := rest.takeWhile (fun c => !(c = '/' || c = '?' || c = '#'))
  (netloc, rest.drop netloc.length)

/-- `urllib.parse.urlsplit` (allow_fragments true, no default scheme). -/
def urlsplitParts (rawUrl : PyStr) : ParseResult :=
  let url0 := removeTabNewline (wsStrip rawUrl)
  let sr := splitScheme url0
  let nr := if ['/', '/'].isPrefixOf sr.2 then splitNetloc sr.2 else ([], sr.2)
  let fr := splitOnce '#' nr.2
  let qr := splitOnce '?' fr.1
  ⟨sr.1, nr.1, qr.1, [], qr.2.getD [], fr.2.getD []⟩

/-- Schemes for which `urlparse` splits `;parameters` off the path
(`urllib.parse.uses_params`; the empty scheme is a member). -/
def usesParams : List PyStr :=
  [[], "ftp".data, "hdl".data, "prospero".data, "http".data, "imap".data,
    "https".data, "shttp".data, "rtsp".data, "rtspu".data, "sip".data,
    "sips".data, "mms".data, "sftp".data, "tel".data]

/-- `urllib.parse._splitparams`: split the parameters after the `;` in the
last path segment. -/
def splitparams (url : PyStr) : PyStr × PyStr :=
  if containsSub url ['/'] then
    match splitFirstSub [';'] (url.drop ((rfindChar '/' url).getD 0)) with
    | some (a, b) => (url.take (((rfindChar '/' url).getD 0) + a.length), b)
    | none => (url, [])
  else
    match splitFirstSub [';'] url with
    | some (a, b) => (a, b)
    | none => (url, [])

/-- `urllib.parse.urlparse`. -/
def urlparse (rawUrl : PyStr) : ParseResult :=
  let r := urlsplitParts rawUrl
  if pyIn r.scheme usesParams && containsSub r.path [';'] then
    let pp := splitparams r.path
    ⟨r.scheme, r.netloc, pp.1, pp.2, r.query, r.fragment⟩
  else r

/-- `urllib.parse.urlunsplit`. -/
def urlunsplit (scheme netloc url query fragment : PyStr) : PyStr :=
  let u1 :=
    if !netloc.isEmpty || (!url.isEmpty && ['/', '/'].isPrefixOf url) then
      ['/', '/'] ++ netloc ++
        (if !url.isEmpty && url.head? != some '/' then '/' :: url else url)
    else url
  let u2 := if !scheme.isEmpty then scheme ++ ':' :: u1 else u1
  let u3 := if !query.isEmpty then u2 ++ '?' :: query else u2
  if !fragment.isEmpty then u3 ++ '#' :: fragment else u3

/-- `ParseResult.geturl` (via `urlunparse`: parameters are re-attached to
the path with `;`, then `urlunsplit` reassembles). -/
def geturl (r : ParseResult) : PyStr :=
  urlunsplit r.scheme r.netloc
    (if !r.params.isEmpty then r.path ++ ';' :: r.params else r.path)
    r.query r.fragment

/-! ## The Value Parser (`parse_str`, `Env.as_int`, `parse_env`) -/

/-- The tagged union of values the Value Parser can produce (spec section 3
`ParsedValue`); `noneV` is Python's `None` (the Absent variant). -/
inductive PyVal where
  | noneV : PyVal
  | bool (b : Bool) : PyVal
  | int (n : Nat) : PyVal
  | str (s : PyStr) : PyVal
  | path (s : PyStr) : PyVal
  | url (u : ParseResult) : PyVal
  | ip (a : IPAddr) : PyVal
deriving DecidableEq

/-- The list `['1', 'true', 'yes', 'on']` from `parse_str`. -/
def boolTrueStrs : List PyStr := ["1".data, "true".data, "yes".data, "on".data]

/-- The list `['0', 'false', 'no', 'off']` from `parse_str`. -/
def boolFalseStrs : List PyStr := ["0".data, "false".data, "no".data, "off".data]

/-- The test `data[0] in ['/', '~', './']` from `parse_str`.  Indexing the
empty string raises IndexError; `data[0]` is a one-character string, so it
is compared (by string equality) with each of `'/'`, `'~'` and the
two-character `'./'` in turn. -/
def headInPathStarters : PyStr → Except PyErr Bool
  | [] => .error .indexError
  | c :: _ => .ok ([c] == ['/'] || [c] == ['~'] || [c] == ['.', '/'])

/-- `mreleaser.parse_str`, on the `None`-or-`str` inputs the claims concern
(other objects are first converted with `str()` by the source and then take
the same path).  Each branch mirrors the source in order: the two boolean
lists, the `'://' in data or '@' in data` URL test, the
`(data[0] in ['/', '~', './'] and ':' not in data) or data == '.'` path
test, then `ipaddress.ip_address`, then `isnumeric`, then the string
fallback `return data`. -/
def parse_str : Option PyStr → Except PyErr PyVal
  | none => .ok .noneV
  | some data =>
    if pyIn (pyLower data) boolTrueStrs then .ok (.bool true)
    else if pyIn (pyLower data) boolFalseStrs then .ok (.bool false)
    else if containsSub data "://".data || containsSub data "@".data then
      .ok (.url (urlparse data))
    else
      match headInPathStarters data with
      | .error e => .error e
      | .ok b =>
        if (b && !containsSub data [':']) || data == ['.'] then .ok (.path data)
        else
          match ipAddress data with
          | some a => .ok (.ip a)
          | none =>
            if pyIsnumeric data then .ok (.int (digitsToNat data)) else .ok (.str data)

/-- `Env._parse_as_int`: keys always coerced to int. -/
def parseAsIntKeys : List PyStr :=
  ["GITHUB_RUN_ATTEMPT".data, "GITHUB_RUN_ID".data, "GITHUB_RUN_NUMBER".data]

/-- `Env._parse_as_int_suffix`: key suffixes always coerced to int. -/
def parseAsIntSuffixes : List PyStr :=
  ["_GID".data, "_JOBS".data, "_PORT".data, "_UID".data]

/-- The `convert` flag computed by `Env.as_int`: only a non-empty value is
considered, and then the key must be in the allow-list or end with one of
the fixed suffixes. -/
def asIntConvert (key v : PyStr) : Bool :=
  if v.isEmpty then false
  else pyIn key parseAsIntKeys || parseAsIntSuffixes.any (fun s => s.isSuffixOf key)

/-- `Env.as_int`: `int(value) if convert and value.isnumeric() else
parse_str(value)`. -/
def as_int (key v : PyStr) : Except PyErr PyVal :=
  if asIntConvert key v && pyIsnumeric v then .ok (.int (digitsToNat v))
  else parse_str (some v)

/-- `mreleaser.parse_env` over an explicit environment mapping
(`os.environ.get`).  The walrus test `if value := os.environ.get(name):` is
falsy both for a missing variable (`None`) and for the empty string, and in
both cases the raw `value` is returned unchanged. -/
def parse_env (env : PyStr → Option PyStr) (name : PyStr) : Except PyErr PyVal :=
  match env name with
  | none => .ok .noneV
  | some v => if v.isEmpty then .ok (.str v) else as_int name v

/-! ## Environment Snapshot attribute lookup (`Env.__getattribute__`,
`Env.__getattr__`, `Env.__getitem__`) -/

/-- The instance `__dict__` of an `Env` snapshot. -/
abbrev EnvDict := List (PyStr × PyVal)

/-- Outcome of an attribute access: a value (with Python `None` embedded as
`PyVal.noneV`), or the interpreter's RecursionError once the recursion
limit is exhausted. -/
inductive AttrRes where
  | val (v : PyVal) : AttrRes
  | recursionError : AttrRes
deriving DecidableEq

/-- Default attribute lookup `super().__getattribute__(name)` as `Env`
uses it: the instance `__dict__` first; for any other name the dataclass
field defaults and the `__getattr__` fallback both produce `None`, so
absent names resolve to `None` at this layer. -/
def objectGetattribute (d : EnvDict) (name : PyStr) : PyVal :=
  match d.find? (fun p => p.1 == name) with
  | some p => p.2
  | none => .noneV

/-- The body of `Env.__getattr__`: the instance `__dict__` value when the
name is present, else `None`.  (This is the lookup contract the spec
describes; the `__getattribute__` override makes it unreachable.) -/
def envGetattr (d : EnvDict) (name : PyStr) : PyVal := objectGetattribute d name

/-- `Env.__getattribute__` with an explicit recursion budget: the method
body runs `if hasattr(self, name): return super().__getattribute__(name);
return None`, and `hasattr` calls `getattr`, which re-enters this very
method, consuming one stack frame per level.  `hasattr` converts only
`AttributeError` to `False`; a `RecursionError` propagates. -/
def envGetattribute (d : EnvDict) (name : PyStr) : Nat → AttrRes
  | 0 => .recursionError
  | n + 1 =>
    match envGetattribute d name n with
    | .recursionError => .recursionError
    | .val _ => .val (objectGetattribute d name)

/-- `Env.__getitem__(item)` runs `return self.__getattr__(item)`: fetching
the bound method `self.__getattr__` is itself an attribute access routed
through `Env.__getattribute__`. -/
def envGetitem (d : EnvDict) (item : PyStr) (fuel : Nat) : AttrRes :=
  match envGetattribute d "__getattr__".data fuel with
  | .recursionError => .recursionError
  | .val _ => .val (envGetattr d item)

/-! ## Version lookup and the `--version` CLI command -/

/-- Model of the external `importlib.metadata.version` lookup (spec section
6: "package name → installed version string, or fail with not-found"),
over an explicit table of installed packages. -/
def importlibVersion (installed : PyStr → Option PyStr) (pkg : PyStr) :
    Except PyErr PyStr :=
  match installed pkg with
  | some v => .ok v
  | none => .error .packageNotFound

/-- `mreleaser.version`: `suppress(importlib.metadata.version, package, ...)`
catches `PackageNotFoundError` and falls off the end of `suppress`, which
then returns `None` — embedded as `Option.none`.  The empty package name
falls back to the module directory name `mreleaser` (`package or
Path(__file__).parent.name`). -/
def version (installed : PyStr → Option PyStr) (pkg : PyStr) : Option PyStr :=
  match importlibVersion installed (if pkg.isEmpty then "mreleaser".data else pkg) with
  | .ok v => some v
  | .error _ => none

/-- `print(x)` for an optional string: Python renders the `None` sentinel
as the four characters `None`, then appends a newline. -/
def pyPrintLine : Option PyStr → PyStr
  | some s => s ++ ['\n']
  | none => "None".data ++ ['\n']

/-- Stdout produced by the `--version` CLI command (`_version`, which runs
`print(version())` with the default package `mreleaser`). -/
def cliVersionStdout (installed : PyStr → Option PyStr) : PyStr :=
  pyPrintLine (version installed "mreleaser".data)

/-- Exit code of the `--version` CLI command: `_version` returns `None`
normally, and the CLI framework maps normal completion to exit code 0. -/
def cliVersionExit (_installed : PyStr → Option PyStr) : Nat := 0

/-- A string is blank when every character is whitespace. -/
def isBlank (s : PyStr) : Bool :=
  s.all (fun c => c = ' ' || c = '\t' || c = '\n' || c = '\r')

/-! ## Command Runner (`cmd`, `aiocmd`, `CmdError`) -/

/-- What the spawned child process did: its exit code and the decoded text
of each captured stream (an empty stream decodes to the empty string). -/
structure ChildOutcome where
  returncode : Int
  stdoutText : PyStr
  stderrText : PyStr
deriving DecidableEq

/-- `subprocess.CompletedProcess` as both runners build it. -/
structure CompletedProcess where
  args : List PyStr
  returncode : Int
  stdout : Option PyStr
  stderr : Option PyStr
deriving DecidableEq

/-- The `CompletedProcess` built by the synchronous `cmd`:
`subprocess.run(args, capture_output=True, text=True)` always yields both
streams as text strings (empty output is the empty string, never `None`). -/
def syncCompleted (args : List PyStr) (o : ChildOutcome) : CompletedProcess :=
  ⟨args, o.returncode, some o.stdoutText, some o.stderrText⟩

/-- The `CompletedProcess` built by `aiocmd`: `stdout.decode() if stdout
else None`, so an empty captured stream becomes `None`. -/
def asyncCompleted (args : List PyStr) (o : ChildOutcome) : CompletedProcess :=
  ⟨args, o.returncode,
    if o.stdoutText.isEmpty then none else some o.stdoutText,
    if o.stderrText.isEmpty then none else some o.stderrText⟩

/-- `CmdError.__init__`: `super().__init__(process.returncode, process.args,
output=process.stdout, stderr=process.stderr)`. -/
structure CmdError where
  returncode : Int
  args : List PyStr
  output : Option PyStr
  stderr : Option PyStr
deriving DecidableEq

/-- Build a `CmdError` from the failed `CompletedProcess`. -/
def cmdErrorOf (p : CompletedProcess) : CmdError :=
  ⟨p.returncode, p.args, p.stdout, p.stderr⟩

/-- Python `repr` of a string, as `str(tuple)` renders each element.  The
claims only exercise arguments without quotes or backslashes, so the
escaping inside `repr` is not modelled. -/
def pyStrRepr (s : PyStr) : PyStr := '\'' :: s ++ ['\'']

/-- Python `str` of a tuple of strings, e.g. `('git', 'status')`, with the
trailing comma of a one-element tuple. -/
def pyTupleRepr (args : List PyStr) : PyStr :=
  match args with
  | [] => "()".data
  | [a] => '(' :: pyStrRepr a ++ ",)".data
  | a :: rest =>
    '(' :: pyStrRepr a ++
      (rest.foldr (fun x acc => ", ".data ++ pyStrRepr x ++ acc) [')'])

/-- Decimal rendering of an integer. -/
def intDecimal (i : Int) : PyStr :=
  if i < 0 then '-' :: Nat.toDigits 10 i.natAbs else Nat.toDigits 10 i.toNat

/-- `subprocess.CalledProcessError.__str__`: the base description of the
failure.  A negative return code means death by signal; CPython renders
known signals through the `signal.Signals` enum repr, modelled here
uniformly by the signal number (the claims only exercise positive exit
codes). -/
def calledProcessErrorStr (args : List PyStr) (rc : Int) : PyStr :=
  if rc < 0 then
    "Command ".data ++ pyTupleRepr args ++ " died with signal ".data ++
      intDecimal (-rc) ++ ['.']
  else
    "Command ".data ++ pyTupleRepr args ++ " returned non-zero exit status ".data ++
      intDecimal rc ++ ['.']

/-- `CmdError.__str__`: the base description, then `"\n" + stderr` when
stderr is not `None`, then `"\n" + stdout` when stdout is not `None`. -/
def cmdErrorStr (e : CmdError) : PyStr :=
  calledProcessErrorStr e.args e.returncode ++
    (match e.stderr with | some s => '\n' :: s | none => []) ++
    (match e.output with | some s => '\n' :: s | none => [])

/-- `mreleaser.cmd` after the child process finished: return the
`CompletedProcess` when the return code is 0, else raise `CmdError`. -/
def cmd (args : List PyStr) (o : ChildOutcome) : Except CmdError CompletedProcess :=
  let completed := syncCompleted args o
  if completed.returncode != 0 then .error (cmdErrorOf completed) else .ok completed

/-- `mreleaser.aiocmd` after the child process finished: same raise-on-
non-zero logic over the `CompletedProcess` it builds. -/
def aiocmd (args : List PyStr) (o : ChildOutcome) : Except CmdError CompletedProcess :=
  let completed := asyncCompleted args o
  if completed.returncode != 0 then .error (cmdErrorOf completed) else .ok completed

/-! ## Helper lemmas -/

theorem lowerChar_of_digit {c : Char} (h : isDigitChar c = true) : lowerChar c = c := by
  simp only [isDigitChar, Bool.and_eq_true, decide_eq_true_eq] at h
  simp only [lowerChar]
  rw [if_neg]
  simp only [Bool.and_eq_true, decide_eq_true_eq, not_and]
  omega

theorem pyLower_of_digits : ∀ {s : PyStr}, (∀ c ∈ s, isDigitChar c = true) → pyLower s = s
  | [], _ => rfl
  | c :: t, h => by
    simp only [pyLower, List.map_cons]
    rw [lowerChar_of_digit (h c (List.mem_cons_self c t))]
    have ht := pyLower_of_digits (s := t) (fun x hx => h x (List.mem_cons_of_mem c hx))
    simp only [pyLower] at ht
    rw [ht]

theorem splitFirstSub_append {needle : PyStr} :
    ∀ {hay : PyStr} {p : PyStr × PyStr}, splitFirstSub needle hay = some p →
      hay = p.1 ++ needle ++ p.2 := by
  intro hay
  induction hay with
  | nil =>
    intro p hp
    simp only [splitFirstSub] at hp
    split at hp
    · next hn =>
      cases hp
      simp [hn]
    · cases hp
  | cons c t ih =>
    intro p hp
    simp only [splitFirstSub] at hp
    split at hp
    · next hpre =>
      cases hp
      obtain ⟨s, hs⟩ := List.isPrefixOf_iff_prefix.mp hpre
      simp only [List.nil_append]
      rw [← hs, List.drop_left]
    · next hnpre =>
      cases hrec : splitFirstSub needle t with
      | none => rw [hrec] at hp; cases hp
      | some q =>
        rw [hrec] at hp
        cases hp
        have := ih hrec
        simp only [List.cons_append, List.append_assoc] at this ⊢
        rw [← this]

theorem mem_of_containsSub {hay needle : PyStr} (h : containsSub hay needle = true)
    {c : Char} (hc : c ∈ needle) : c ∈ hay := by
  simp only [containsSub, Option.isSome_iff_exists] at h
  obtain ⟨p, hp⟩ := h
  rw [splitFirstSub_append hp]
  simp [hc]

theorem mem_of_pyIn {s : PyStr} {xs : List PyStr} (h : pyIn s xs = true) : s ∈ xs := by
  simp only [pyIn, List.any_eq_true, beq_iff_eq] at h
  obtain ⟨x, hx, hxe⟩ := h
  rw [hxe]
  exact hx

theorem splitOn_of_not_mem {sep : Char} : ∀ {s : PyStr}, sep ∉ s → splitOn sep s = [s]
  | [], _ => rfl
  | c :: t, h => by
    simp only [splitOn]
    rw [splitOn_of_not_mem (s := t) (fun hm => h (List.mem_cons_of_mem c hm))]
    rw [if_neg (fun hce => h (by rw [← hce]; exact List.mem_cons_self c t))]

theorem pyIn_boolTrue_false_of_mem {s : PyStr} {c : Char} (hcs : c ∈ pyLower s)
    (h1 : c ∉ ("1".data : PyStr)) (h2 : c ∉ ("true".data : PyStr))
    (h3 : c ∉ ("yes".data : PyStr)) (h4 : c ∉ ("on".data : PyStr)) :
    pyIn (pyLower s) boolTrueStrs = false := by
  cases h : pyIn (pyLower s) boolTrueStrs with
  | false => rfl
  | true =>
    exfalso
    have hm := mem_of_pyIn h
    simp only [boolTrueStrs, List.mem_cons, List.not_mem_nil, or_false] at hm
    rcases hm with he | he | he | he <;> rw [he] at hcs
    exacts [h1 hcs, h2 hcs, h3 hcs, h4 hcs]

theorem pyIn_boolFalse_false_of_mem {s : PyStr} {c : Char} (hcs : c ∈ pyLower s)
    (h1 : c ∉ ("0".data : PyStr)) (h2 : c ∉ ("false".data : PyStr))
    (h3 : c ∉ ("no".data : PyStr)) (h4 : c ∉ ("off".data : PyStr)) :
    pyIn (pyLower s) boolFalseStrs = false := by
  cases h : pyIn (pyLower s) boolFalseStrs with
  | false => rfl
  | true =>
    exfalso
    have hm := mem_of_pyIn h
    simp only [boolFalseStrs, List.mem_cons, List.not_mem_nil, or_false] at hm
    rcases hm with he | he | he | he <;> rw [he] at hcs
    exacts [h1 hcs, h2 hcs, h3 hcs, h4 hcs]

theorem parse_str_digits : ∀ {s : PyStr}, s ≠ [] → (∀ c ∈ s, isDigitChar c = true) →
    s ≠ "1".data → s ≠ "0".data → parse_str (some s) = .ok (.int (digitsToNat s)) := by
  intro s hne hdig h1 h0
  obtain ⟨c, t, rfl⟩ : ∃ c t, s = c :: t := by
    cases s with
    | nil => exact absurd rfl hne
    | cons c t => exact ⟨c, t, rfl⟩
  have hlow : pyLower (c :: t) = c :: t := pyLower_of_digits hdig
  have hcd : isDigitChar c = true := hdig c (List.mem_cons_self c t)
  have htrue : pyIn (pyLower (c :: t)) boolTrueStrs = false := by
    rw [hlow]
    cases h : pyIn (c :: t) boolTrueStrs with
    | false => rfl
    | true =>
      exfalso
      have hm := mem_of_pyIn h
      simp only [boolTrueStrs, List.mem_cons, List.not_mem_nil, or_false] at hm
      rcases hm with he | he | he | he
      · exact h1 he
      · exact absurd (hdig 't' (by rw [he]; decide)) (by decide)
      · exact absurd (hdig 'y' (by rw [he]; decide)) (by decide)
      · exact absurd (hdig 'o' (by rw [he]; decide)) (by decide)
  have hfalse : pyIn (pyLower (c :: t)) boolFalseStrs = false := by
    rw [hlow]
    cases h : pyIn (c :: t) boolFalseStrs with
    | false => rfl
    | true =>
      exfalso
      have hm := mem_of_pyIn h
      simp only [boolFalseStrs, List.mem_cons, List.not_mem_nil, or_false] at hm
      rcases hm with he | he | he | he
      · exact h0 he
      · exact absurd (hdig 'f' (by rw [he]; decide)) (by decide)
      · exact absurd (hdig 'n' (by rw [he]; decide)) (by decide)
      · exact absurd (hdig 'f' (by rw [he]; decide)) (by decide)
  have hnocolon : ':' ∉ c :: t := fun hm => absurd (hdig ':' hm) (by decide)
  have hnoat : '@' ∉ c :: t := fun hm => absurd (hdig '@' hm) (by decide)
  have hnodot : '.' ∉ c :: t := fun hm => absurd (hdig '.' hm) (by decide)
  have hu1 : containsSub (c :: t) "://".data = false := by
    cases h : containsSub (c :: t) "://".data with
    | false => rfl
    | true => exact absurd (mem_of_containsSub h (by decide)) hnocolon
  have hu2 : containsSub (c :: t) "@".data = false := by
    cases h : containsSub (c :: t) "@".data with
    | false => rfl
    | true => exact absurd (mem_of_containsSub h (by decide)) hnoat
  have hcs : c ≠ '/' := fun he => absurd (he ▸ hcd) (by decide)
  have hct : c ≠ '~' := fun he => absurd (he ▸ hcd) (by decide)
  have hcp : c ≠ '.' := fun he => absurd (he ▸ hcd) (by decide)
  have hb : headInPathStarters (c :: t) = .ok false := by
    simp only [headInPathStarters]
    congr 1
    simp [hcs, hct]
  have hdotlist : ((c :: t : PyStr) == ['.']) = false := by
    rw [beq_eq_false_iff_ne]
    simp [hcp]
  have hip4 : parseIPv4 (c :: t) = none := by
    unfold parseIPv4
    rw [splitOn_of_not_mem hnodot]
  have hdc : splitFirstSub [':', ':'] (c :: t) = none := by
    cases h : splitFirstSub [':', ':'] (c :: t) with
    | none => rfl
    | some p =>
      exact absurd (@mem_of_containsSub (c :: t) [':', ':']
        (by simp [containsSub, h]) ':' (by decide)) hnocolon
  have hip6 : parseIPv6 (c :: t) = none := by
    unfold parseIPv6
    rw [hdc, splitOn_of_not_mem hnocolon]
    simp
  have hip : ipAddress (c :: t) = none := by
    unfold ipAddress
    rw [hip4, hip6]
  have hnum : pyIsnumeric (c :: t) = true := by
    simp only [pyIsnumeric, List.isEmpty_cons, Bool.not_false, Bool.true_and, List.all_eq_true]
    exact hdig
  simp only [parse_str, htrue, hfalse, hu1, hu2, hb, hdotlist, hip, hnum,
    Bool.or_self, Bool.false_eq_true, if_false, Bool.false_and, Bool.false_or,
    if_true]

theorem parse_str_url_aux : ∀ {s : PyStr},
    containsSub s "://".data = true ∨ containsSub s "@".data = true →
    parse_str (some s) = .ok (.url (urlparse s)) := by
  intro s hsp
  have hmem : ':' ∈ s ∨ '@' ∈ s := by
    rcases hsp with h | h
    · exact Or.inl (mem_of_containsSub h (by decide))
    · exact Or.inr (mem_of_containsSub h (by decide))
  have hlowmem : ':' ∈ pyLower s ∨ '@' ∈ pyLower s := by
    rcases hmem with h | h
    · refine Or.inl ?_
      have hmm := List.mem_map_of_mem lowerChar h
      have he : lowerChar ':' = ':' := rfl
      rw [he] at hmm
      exact hmm
    · refine Or.inr ?_
      have hmm := List.mem_map_of_mem lowerChar h
      have he : lowerChar '@' = '@' := rfl
      rw [he] at hmm
      exact hmm
  have htrue : pyIn (pyLower s) boolTrueStrs = false := by
    rcases hlowmem with h | h
    · exact pyIn_boolTrue_false_of_mem h (by decide) (by decide) (by decide) (by decide)
    · exact pyIn_boolTrue_false_of_mem h (by decide) (by decide) (by decide) (by decide)
  have hfalse : pyIn (pyLower s) boolFalseStrs = false := by
    rcases hlowmem with h | h
    · exact pyIn_boolFalse_false_of_mem h (by decide) (by decide) (by decide) (by decide)
    · exact pyIn_boolFalse_false_of_mem h (by decide) (by decide) (by decide) (by decide)
  have hcond : (containsSub s "://".data || containsSub s "@".data) = true := by
    rcases hsp with h | h <;> simp [h]
  simp only [parse_str, htrue, hfalse, hcond, Bool.false_eq_true, if_false, if_true]

theorem envGetattribute_rec : ∀ (fuel : Nat) (d : EnvDict) (name : PyStr),
    envGetattribute d name fuel = .recursionError := by
  intro fuel
  induction fuel with
  | zero => intro d name; rfl
  | succ n ih =>
    intro d name
    simp only [envGetattribute, ih d name]

theorem as_int_aux (key v : PyStr)
    (hkey : pyIn key parseAsIntKeys = true ∨
      parseAsIntSuffixes.any (fun s => s.isSuffixOf key) = true) :
    (pyIsnumeric v = true → as_int key v = .ok (.int (digitsToNat v))) ∧
    (pyIsnumeric v = false → as_int key v = parse_str (some v)) := by
  constructor
  · intro hnum
    have hvne : v.isEmpty = false := by
      cases hv : v with
      | nil => rw [hv] at hnum; exact absurd hnum (by decide)
      | cons a b => rfl
    have hconv : asIntConvert key v = true := by
      unfold asIntConvert
      rcases hkey with h | h <;> simp [hvne, h]
    unfold as_int
    rw [hconv, hnum]
    rfl
  · intro hnum
    unfold as_int
    rw [hnum]
    simp

theorem aiocmd_cmd_aux (args : List PyStr) (o : ChildOutcome)
    (h1 : o.stdoutText ≠ []) (h2 : o.stderrText ≠ []) :
    aiocmd args o = cmd args o := by
  have e1 : o.stdoutText.isEmpty = false := by
    cases ho : o.stdoutText with
    | nil => exact absurd ho h1
    | cons a b => rfl
  have e2 : o.stderrText.isEmpty = false := by
    cases ho : o.stderrText with
    | nil => exact absurd ho h2
    | cons a b => rfl
  unfold aiocmd cmd asyncCompleted syncCompleted
  simp [e1, e2]

theorem cmd_aux (args : List PyStr) (o : ChildOutcome) :
    (o.returncode = 0 → cmd args o = .ok (syncCompleted args o)) ∧
    (o.returncode ≠ 0 →
      cmd args o = .error (cmdErrorOf (syncCompleted args o)) ∧
      (cmdErrorOf (syncCompleted args o)).returncode = o.returncode ∧
      (cmdErrorOf (syncCompleted args o)).stderr = some o.stderrText ∧
      (cmdErrorOf (syncCompleted args o)).output = some o.stdoutText ∧
      cmdErrorStr (cmdErrorOf (syncCompleted args o)) =
        calledProcessErrorStr args o.returncode ++ '\n' :: o.stderrText ++ '\n' :: o.stdoutText) := by
  constructor
  · intro h
    unfold cmd
    simp [syncCompleted, h]
  · intro h
    refine ⟨?_, rfl, rfl, rfl, ?_⟩
    · unfold cmd
      simp [syncCompleted, h]
    · rfl

theorem version_aux (installed : PyStr → Option PyStr)
    (h : installed "mreleaser".data = none) :
    version installed "mreleaser".data = none ∧
    cliVersionStdout installed = "None\n".data ∧
    cliVersionExit installed = 0 := by
  have h1 : version installed "mreleaser".data = none := by
    show (match (match installed "mreleaser".data with
                 | some v => Except.ok v
                 | none => Except.error PyErr.packageNotFound) with
          | Except.ok v => some v
          | Except.error _ => none) = none
    rw [h]
  refine ⟨h1, ?_, rfl⟩
  unfold cliVersionStdout
  rw [h1]
  rfl

theorem parse_env_aux (env envAbsent : PyStr → Option PyStr) (name : PyStr)
    (hset : env name = some []) (habs : envAbsent name = none) :
    parse_env env name = .ok (.str []) ∧
    as_int name [] = .error .indexError ∧
    parse_env envAbsent name = .ok .noneV ∧
    PyVal.str [] ≠ PyVal.noneV := by
  refine ⟨?_, ?_, ?_, by decide⟩
  · unfold parse_env
    rw [hset]
    rfl
  · rfl
  · unfold parse_env
    rw [habs]

/-! ## Claim theorems -/

/-- C1: The claim says classification by `parse_str` is deterministic and
total, yielding exactly one variant — `Absent` for absent or empty input —
and never raises.  The embedding is a function, so determinism holds, and
`None` input does map to the `None` sentinel; but on the empty string the
source evaluates `data[0]` (the path-prefix test runs before any emptiness
check) and raises IndexError, refuting totality exactly where the claim
includes the empty string. -/
theorem parse_str_empty_string_raises :
    parse_str none = Except.ok PyVal.noneV ∧
    parse_str (some []) = Except.error PyErr.indexError := ⟨rfl, by decide⟩

/-- C2 counterexample: when the package metadata lookup fails, the CLI
`--version` command prints the line `None` — `print(version())` renders the
swallowed-failure `None` sentinel — so stdout is neither empty nor blank,
contrary to the claimed empty/blank output. -/
theorem cli_version_stdout_not_blank :
    cliVersionStdout (fun _ => none) = "None\n".data ∧
    isBlank (cliVersionStdout (fun _ => none)) = false ∧
    cliVersionStdout (fun _ => none) ≠ [] := by
  exact ⟨rfl, rfl, by decide⟩

/-- C2 (amended): when the package metadata lookup fails, `version()`
swallows the failure and returns the absent sentinel `None` instead of
propagating, and invoking the `--version` CLI command then prints the line
`None` (the rendered sentinel, not blank output) and exits with code 0,
with no crash. -/
theorem version_lookup_swallowed (installed : PyStr → Option PyStr)
    (h : installed "mreleaser".data = none) :
    version installed "mreleaser".data = none ∧
    cliVersionStdout installed = "None\n".data ∧
    cliVersionExit installed = 0 :=
  version_aux installed h

/-- C2 witness: the amended theorem evaluated with no package installed. -/
theorem version_lookup_swallowed_witness :
    version (fun _ => none) "mreleaser".data = none ∧
    cliVersionStdout (fun _ => none) = "None\n".data ∧
    cliVersionExit (fun _ => none) = 0 :=
  version_lookup_swallowed (fun _ => none) rfl

/-- C3: The claim (and the source's own doctest) says strings starting with
`/`, `~` or `./` with no colon, and the exact string `.`, classify as Path.
This holds for `/` and `~` prefixes and for `.`; but `data[0]` is a single
character and can never equal the two-character `'./'` in
`data[0] in ['/', '~', './']`, so `./foo` falls through every branch to the
plain-string fallback, contradicting the doctest
`assert parse_str("./foo") == Path('./foo')`. -/
theorem parse_str_path_prefixes :
    parse_str (some "/foo".data) = Except.ok (PyVal.path "/foo".data) ∧
    parse_str (some "~/foo".data) = Except.ok (PyVal.path "~/foo".data) ∧
    parse_str (some ".".data) = Except.ok (PyVal.path ".".data) ∧
    parse_str (some "./foo".data) = Except.ok (PyVal.str "./foo".data) := by
  exact ⟨by decide, by decide, by decide, by decide⟩

/-- C4 counterexample: `"1"` consists solely of ASCII digits, yet the
boolean branch captures it first, so it classifies as Boolean true, not as
Integer 1 — refuting the claim that every pure-digit string classifies as
Integer. -/
theorem parse_str_one_is_boolean :
    parse_str (some "1".data) = Except.ok (PyVal.bool true) ∧
    parse_str (some "1".data) ≠ Except.ok (PyVal.int 1) := by
  exact ⟨by decide, by decide⟩

/-- C4 (amended): every string of ASCII digits other than `"1"` and `"0"`
classifies as Integer with its base-10 value; `"1"` and `"0"` are captured
first by the boolean rule and classify as Boolean true and false. -/
theorem parse_str_pure_digits_integer :
    (∀ s : PyStr, s ≠ [] → (∀ c ∈ s, isDigitChar c = true) →
      s ≠ "1".data → s ≠ "0".data →
      parse_str (some s) = Except.ok (PyVal.int (digitsToNat s))) ∧
    parse_str (some "1".data) = Except.ok (PyVal.bool true) ∧
    parse_str (some "0".data) = Except.ok (PyVal.bool false) := by
  refine ⟨fun s hne hdig h1 h0 => parse_str_digits hne hdig h1 h0, by decide, by decide⟩

/-- C4 witness: the amended theorem evaluated at the digit string `"23"`. -/
theorem parse_str_pure_digits_integer_witness :
    parse_str (some "23".data) = Except.ok (PyVal.int (digitsToNat "23".data)) :=
  parse_str_pure_digits_integer.1 "23".data (by decide) (by decide) (by decide) (by decide)

/-- C5: every string containing `://` or `@` is dispatched to the URL
branch (the boolean literals contain neither character, so no earlier
branch can fire), and rendering the parsed URL back with `geturl`
reproduces the tested inputs `https://example.com` and `git@github.com`
exactly. -/
theorem parse_str_url_roundtrip :
    (∀ s : PyStr, containsSub s "://".data = true ∨ containsSub s "@".data = true →
      parse_str (some s) = Except.ok (PyVal.url (urlparse s))) ∧
    geturl (urlparse "https://example.com".data) = "https://example.com".data ∧
    geturl (urlparse "git@github.com".data) = "git@github.com".data := by
  refine ⟨fun s hsp => parse_str_url_aux hsp, by decide, by decide⟩

/-- C5 witness: the dispatch applied to `https://example.com`, whose text
contains `://`. -/
theorem parse_str_url_roundtrip_witness :
    parse_str (some "https://example.com".data) =
      Except.ok (PyVal.url (urlparse "https://example.com".data)) :=
  parse_str_url_roundtrip.1 "https://example.com".data (Or.inl (by decide))

/-- C6: a child process exiting 0 makes `cmd` return the `CompletedProcess`
with no error; a non-zero exit raises `CmdError` carrying that exit code
and both captured streams, and the rendered message is the base
non-zero-exit description followed by stderr then stdout, each on its own
line, in that order (both streams are always present in text mode). -/
theorem cmd_exit_code_contract (args : List PyStr) (o : ChildOutcome) :
    (o.returncode = 0 → cmd args o = Except.ok (syncCompleted args o)) ∧
    (o.returncode ≠ 0 →
      cmd args o = Except.error (cmdErrorOf (syncCompleted args o)) ∧
      (cmdErrorOf (syncCompleted args o)).returncode = o.returncode ∧
      (cmdErrorOf (syncCompleted args o)).stderr = some o.stderrText ∧
      (cmdErrorOf (syncCompleted args o)).output = some o.stdoutText ∧
      cmdErrorStr (cmdErrorOf (syncCompleted args o)) =
        calledProcessErrorStr args o.returncode ++ '\n' :: o.stderrText ++ '\n' :: o.stdoutText) :=
  cmd_aux args o

/-- C6 witness: the contract evaluated at exit code 0 and at exit code 1
with concrete captured streams, including the rendered message text. -/
theorem cmd_exit_code_contract_witness :
    cmd ["git".data] ⟨0, [], []⟩ = Except.ok (syncCompleted ["git".data] ⟨0, [], []⟩) ∧
    cmd ["git".data] ⟨1, "out".data, "err".data⟩ =
      Except.error (cmdErrorOf (syncCompleted ["git".data] ⟨1, "out".data, "err".data⟩)) ∧
    cmdErrorStr (cmdErrorOf (syncCompleted ["git".data] ⟨1, "out".data, "err".data⟩)) =
      "Command ('git',) returned non-zero exit status 1.\nerr\nout".data :=
  ⟨(cmd_exit_code_contract ["git".data] ⟨0, [], []⟩).1 rfl,
   ((cmd_exit_code_contract ["git".data] ⟨1, "out".data, "err".data⟩).2 (by decide)).1,
   by decide⟩

/-- C7 counterexample: for a key in the always-integer allow-list, the
empty raw value is non-numeric, yet `as_int` does not fall back gracefully:
it delegates to `parse_str("")`, which raises IndexError — refuting the
"falls back rather than failing" part of the claim for the empty value. -/
theorem as_int_empty_value_raises :
    pyIsnumeric ([] : PyStr) = false ∧
    as_int "GITHUB_RUN_ID".data [] = Except.error PyErr.indexError := by
  exact ⟨rfl, by decide⟩

/-- C7 (amended): for a key in the `_parse_as_int` allow-list or ending in
one of the `_parse_as_int_suffix` suffixes, a purely numeric raw value
yields Integer of its base-10 value, and a non-numeric raw value yields
exactly the generic Value Parser result `parse_str(value)` — which fails
only on the empty string (see the counterexample), where `parse_str`
itself raises IndexError. -/
theorem as_int_integer_coercion (key v : PyStr)
    (hkey : pyIn key parseAsIntKeys = true ∨
      parseAsIntSuffixes.any (fun s => s.isSuffixOf key) = true) :
    (pyIsnumeric v = true → as_int key v = Except.ok (PyVal.int (digitsToNat v))) ∧
    (pyIsnumeric v = false → as_int key v = parse_str (some v)) :=
  as_int_aux key v hkey

/-- C7 witness: `GITHUB_RUN_ID` with raw value `"3"` yields Integer 3, and
with the non-numeric raw value `"abc"` falls back to the Value Parser. -/
theorem as_int_integer_coercion_witness :
    as_int "GITHUB_RUN_ID".data "3".data = Except.ok (PyVal.int (digitsToNat "3".data)) ∧
    as_int "GITHUB_RUN_ID".data "abc".data = parse_str (some "abc".data) :=
  ⟨(as_int_integer_coercion "GITHUB_RUN_ID".data "3".data (Or.inl (by decide))).1 (by decide),
   (as_int_integer_coercion "GITHUB_RUN_ID".data "abc".data (Or.inl (by decide))).2 (by decide)⟩

/-- C8: the claim says looking up an absent key on an Environment Snapshot
returns the `None` sentinel rather than raising.  That is what the
`__getattr__` body implements, but the `__getattribute__` override calls
`hasattr(self, name)`, which re-enters `__getattribute__`; for every
recursion budget, both attribute access and item access therefore exhaust
the interpreter's recursion limit and raise RecursionError instead of
returning `None`, for present and absent keys alike. -/
theorem env_lookup_recursion (d : EnvDict) (name : PyStr) (fuel : Nat) :
    envGetattribute d name fuel = AttrRes.recursionError ∧
    envGetitem d name fuel = AttrRes.recursionError := by
  refine ⟨envGetattribute_rec fuel d name, ?_⟩
  unfold envGetitem
  rw [envGetattribute_rec fuel d "__getattr__".data]

/-- C9 counterexample: for the same child outcome — exit code 0 with both
streams empty — the synchronous runner returns a `CompletedProcess` whose
streams are empty text (`text=True` always yields strings), while the
asynchronous runner maps the empty byte streams to `None`; the two results
differ, refuting the claimed shared contract of equivalent
`CompletedProcess` values. -/
theorem aiocmd_cmd_disagree_empty_streams :
    cmd ["true".data] ⟨0, [], []⟩ =
      Except.ok ⟨["true".data], 0, some [], some []⟩ ∧
    aiocmd ["true".data] ⟨0, [], []⟩ =
      Except.ok ⟨["true".data], 0, none, none⟩ ∧
    aiocmd ["true".data] ⟨0, [], []⟩ ≠ cmd ["true".data] ⟨0, [], []⟩ := by
  exact ⟨by decide, by decide, by decide⟩

/-- C9 (amended): the two runners agree — same `CompletedProcess` on exit
code 0 and the same `CmdError` on non-zero exit — for every child outcome
whose captured stdout and stderr are both non-empty; when a stream is
empty, `cmd` records it as empty text while `aiocmd` records `None`, and
the results differ (see the counterexample). -/
theorem aiocmd_cmd_agree_nonempty (args : List PyStr) (o : ChildOutcome)
    (h1 : o.stdoutText ≠ []) (h2 : o.stderrText ≠ []) :
    aiocmd args o = cmd args o :=
  aiocmd_cmd_aux args o h1 h2

/-- C9 witness: the agreement evaluated on a concrete non-empty-stream
outcome. -/
theorem aiocmd_cmd_agree_nonempty_witness :
    aiocmd ["git".data] ⟨1, "out".data, "err".data⟩ =
      cmd ["git".data] ⟨1, "out".data, "err".data⟩ :=
  aiocmd_cmd_agree_nonempty ["git".data] ⟨1, "out".data, "err".data⟩ (by decide) (by decide)

/-- C10: a variable present in the environment with the empty-string value
makes `parse_env` return the raw empty string unchanged — the walrus test
is falsy, so `Env.as_int` and the Value Parser are skipped (indeed
`as_int` on the empty value would raise IndexError) — and this result is
distinct from the `None` returned for a variable absent from the
environment. -/
theorem parse_env_empty_distinct_from_absent (env envAbsent : PyStr → Option PyStr)
    (name : PyStr) (hset : env name = some []) (habs : envAbsent name = none) :
    parse_env env name = Except.ok (PyVal.str []) ∧
    as_int name [] = Except.error PyErr.indexError ∧
    parse_env envAbsent name = Except.ok PyVal.noneV ∧
    PyVal.str [] ≠ PyVal.noneV :=
  parse_env_aux env envAbsent name hset habs

/-- C10 witness: the theorem evaluated on concrete environments, one
mapping `FOO` to the empty string and one with `FOO` absent. -/
theorem parse_env_empty_distinct_from_absent_witness :
    parse_env (fun _ => some []) "FOO".data = Except.ok (PyVal.str []) ∧
    parse_env (fun _ => none) "FOO".data = Except.ok PyVal.noneV :=
  ⟨(parse_env_empty_distinct_from_absent (fun _ => some []) (fun _ => none)
      "FOO".data rfl rfl).1,
   (parse_env_empty_distinct_from_absent (fun _ => some []) (fun _ => none)
      "FOO".data rfl rfl).2.2.1⟩
